import Mathlib

/-!
Verification of the RBD mirror status cache
(`metrics/internal/cache/rbd-mirror.go`).

The Go code maintains `RBDMirrorStore`, a map from pool UID to
`RBDMirrorPoolStatusVerbose`, populated by `Add`/`Update`/`Delete`/
`Replace` events and refreshed by `Resync`.  Credentials for the external
`rbd` command are resolved lazily per namespace by `WithRBDCommandInput`
and cached in `rbdCommandInput`.

The embedding below represents the Go maps as association lists with
Go-map insert/delete semantics, and the external world (Kubernetes secret
and configmap lookups, JSON unmarshalling and the spawned `rbd` process)
as an explicit `Env` of fallible functions.  Every operation additionally
returns the list of external calls it performed, so that "no external
calls" properties are statable.
-/

namespace RBDMirror

deriving instance DecidableEq for Except

/-- Go-map lookup on an association list (first binding wins; reachable
states have unique keys). -/
def mlookup {β : Type} : List (String × β) → String → Option β
  | [], _ => none
  | (k, v) :: rest, key => if k = key then some v else mlookup rest key

/-- Go-map insert: overwrite the binding if the key is present, otherwise
append a new binding. -/
def minsert {β : Type} : List (String × β) → String → β → List (String × β)
  | [], key, v => [(key, v)]
  | (k, v') :: rest, key, v =>
    if k = key then (key, v) :: rest else (k, v') :: minsert rest key v

/-- Go-map delete: remove every binding for the key. -/
def merase {β : Type} : List (String × β) → String → List (String × β)
  | [], _ => []
  | (k, v) :: rest, key =>
    if k = key then merase rest key else (k, v) :: merase rest key

/-! ## Data model (`rbd-mirror.go` lines 27–113) -/

structure RBDMirrorImageStatusStates where
  Unknown : Int
  Error : Int
  Syncing : Int
  StartingReplay : Int
  Replaying : Int
  StoppingReplay : Int
  Stopped : Int
deriving DecidableEq, Repr

structure RBDMirrorPoolStatusSummary where
  Health : String
  DaemonHealth : String
  ImageHealth : String
  States : RBDMirrorImageStatusStates
deriving DecidableEq, Repr

structure RBDMirrorDaemonStatus where
  ServiceID : String
  InstanceID : String
  ClientID : String
  Hostname : String
  CephVersion : String
  Leader : Bool
  Health : String
deriving DecidableEq, Repr

structure RBDMirrorDaemonService where
  ServiceID : String
  InstanceID : String
  DaemonID : String
  Hostname : String
deriving DecidableEq, Repr

structure RBDMirrorPeerSite where
  SiteName : String
  MirrorUuids : String
  State : String
  Description : String
  LastUpdate : String
deriving DecidableEq, Repr

structure RBDMirrorImageStatus where
  Name : String
  GlobalID : String
  State : String
  Description : String
  DaemonService : RBDMirrorDaemonService
  LastUpdate : String
  PeerSites : List RBDMirrorPeerSite
deriving DecidableEq, Repr

structure RBDMirrorStatusVerbose where
  Summary : RBDMirrorPoolStatusSummary
  Daemons : List RBDMirrorDaemonStatus
  Images : List RBDMirrorImageStatus
deriving DecidableEq, Repr

structure RBDMirrorPoolStatusVerbose where
  PoolName : String
  PoolNamespace : String
  MirrorStatus : RBDMirrorStatusVerbose
deriving DecidableEq, Repr

/-- `csiClusterConfig` (lines 110–113). -/
structure csiClusterConfig where
  ClusterID : String
  Monitors : List String
deriving DecidableEq, Repr

/-- `rbdCommandInput` (lines 336–338): credential triple for the rbd CLI. -/
structure rbdCommandInput where
  monitor : String
  id : String
  key : String
deriving DecidableEq, Repr

/-! ## Errors

Every Go error produced by the file, as a distinct constructor.  The
`typeMismatch` constructor covers both `meta.Accessor` failures and the
failed `*cephv1.CephBlockPool` type assertion (both are plain error
strings in Go), distinguished by their message. -/

inductive Err where
  | notAllowedNamespace (ns : String)
  | secretLookup (ns : String) (msg : String)
  | secretFieldMissing (ns : String)
  | configLookup (ns : String) (msg : String)
  | configFieldMissing (ns : String)
  | configParse (ns : String) (msg : String)
  | noClusterConfig (ns : String)
  | noMonitors (ns : String)
  | typeMismatch (msg : String)
  | rbdInputError (ns : String) (pool : String) (e : Err)
  | rbdCommandError (e : Err)
  | incompleteCredentials
  | commandFailed (msg : String)
  | responseParse (msg : String)
deriving DecidableEq, Repr

/-- Message of the error returned by `meta.Accessor` on an object without
object metadata. -/
def objectMetaErrMsg : String := "object does not implement the Object interfaces"

/-- Message of the `Add` error for an object that is not a CephBlockPool. -/
def unexpectedTypeMsg : String := "unexpected object of type"

/-! ## External world -/

/-- One external call performed by the cache. -/
inductive ExtCall where
  | secretGet (ns : String)
  | configMapGet (ns : String)
  | rbdExec (monitor : String) (id : String) (key : String) (pool : String)
deriving DecidableEq, Repr

/-- The environment: Kubernetes API reads, JSON unmarshalling and the
external `rbd` process, each as an abstract fallible function.
`secrets ns` is the data of secret `rook-ceph-mon` in `ns` (or the Get
error); `configmaps ns` likewise for `rook-ceph-csi-config`;
`unmarshalClusterConfig` is `json.Unmarshal` into `[]csiClusterConfig`;
`execRBD` is the combined output of the spawned `rbd` process;
`unmarshalStatus` is `json.Unmarshal` into `RBDMirrorStatusVerbose`. -/
structure Env where
  secrets : String → Except String (List (String × String))
  configmaps : String → Except String (List (String × String))
  unmarshalClusterConfig : String → Except String (List csiClusterConfig)
  execRBD : String → String → String → String → Except String String
  unmarshalStatus : String → Except String RBDMirrorStatusVerbose

/-! ## Store state (`RBDMirrorStore`, lines 121–130) -/

structure RBDMirrorStore where
  Store : List (String × RBDMirrorPoolStatusVerbose)
  rbdCommandInput : List (String × rbdCommandInput)
  allowedNamespaces : List String
deriving DecidableEq, Repr

/-! ## Input objects

`Add`/`Delete` take `interface{}`.  `meta.Accessor` succeeds on any
object carrying object metadata; the subsequent type assertion in `Add`
requires a `*cephv1.CephBlockPool`. -/

structure CephBlockPool where
  Name : String
  Namespace : String
  UID : String
  MirroringEnabled : Bool
deriving DecidableEq, Repr

inductive Obj where
  | pool (p : CephBlockPool)
  | withMeta (uid : String)
  | noMeta
deriving DecidableEq, Repr

/-- `meta.Accessor(obj).GetUID()`: `none` models the accessor error. -/
def metaAccessorUID : Obj → Option String
  | .pool p => some p.UID
  | .withMeta uid => some uid
  | .noMeta => none

/-! ## Operations -/

/-- Credential resolution for a namespace (`WithRBDCommandInput`,
lines 147–195): allow-list check, secret read, configmap read, JSON
decode, emptiness checks; on success the triple
(first monitor of first record, "admin", secret key). -/
def resolveCredential (env : Env) (allowed : List String) (ns : String) :
    Except Err rbdCommandInput × List ExtCall :=
  if ns ∈ allowed then
    match env.secrets ns with
    | .error msg => (.error (.secretLookup ns msg), [.secretGet ns])
    | .ok secretData =>
      match mlookup secretData "ceph-secret" with
      | none => (.error (.secretFieldMissing ns), [.secretGet ns])
      | some key =>
        match env.configmaps ns with
        | .error msg =>
          (.error (.configLookup ns msg), [.secretGet ns, .configMapGet ns])
        | .ok cmData =>
          match mlookup cmData "csi-cluster-config-json" with
          | none =>
            (.error (.configFieldMissing ns), [.secretGet ns, .configMapGet ns])
          | some data =>
            match env.unmarshalClusterConfig data with
            | .error msg =>
              (.error (.configParse ns msg), [.secretGet ns, .configMapGet ns])
            | .ok clusterConfig =>
              match clusterConfig with
              | [] =>
                (.error (.noClusterConfig ns), [.secretGet ns, .configMapGet ns])
              | cfg :: _ =>
                match cfg.Monitors with
                | [] =>
                  (.error (.noMonitors ns), [.secretGet ns, .configMapGet ns])
                | m :: _ =>
                  (.ok ⟨m, "admin", key⟩, [.secretGet ns, .configMapGet ns])
  else
    (.error (.notAllowedNamespace ns), [])

/-- `WithRBDCommandInput` (lines 147–199): resolve and, on success, store
the triple under the namespace (line 196). -/
def WithRBDCommandInput (env : Env) (s : RBDMirrorStore) (ns : String) :
    Except Err Unit × RBDMirrorStore × List ExtCall :=
  match resolveCredential env s.allowedNamespaces ns with
  | (.error e, calls) => (.error e, s, calls)
  | (.ok input, calls) =>
    (.ok (), { s with rbdCommandInput := minsert s.rbdCommandInput ns input },
     calls)

/-- The lazy-resolution pattern shared by `Add` (lines 217–223) and
`Resync` (lines 297–303): skip resolution when the namespace is already
cached. -/
def ensureRBDCommandInput (env : Env) (s : RBDMirrorStore) (ns : String) :
    Except Err Unit × RBDMirrorStore × List ExtCall :=
  if (mlookup s.rbdCommandInput ns).isSome then (.ok (), s, [])
  else WithRBDCommandInput env s ns

/-- `rbdCommandInput.rbdImageStatus` (lines 340–357): guard against the
all-empty triple, spawn the `rbd` process once, decode its output. -/
def rbdImageStatus (env : Env) (input : rbdCommandInput) (poolName : String) :
    Except Err RBDMirrorStatusVerbose × List ExtCall :=
  if input.monitor = "" ∧ input.id = "" ∧ input.key = "" then
    (.error .incompleteCredentials, [])
  else
    match env.execRBD input.monitor input.id input.key poolName with
    | .error msg =>
      (.error (.commandFailed msg),
       [.rbdExec input.monitor input.id input.key poolName])
    | .ok out =>
      match env.unmarshalStatus out with
      | .error msg =>
        (.error (.responseParse msg),
         [.rbdExec input.monitor input.id input.key poolName])
      | .ok st =>
        (.ok st, [.rbdExec input.monitor input.id input.key poolName])

/-- `RBDMirrorStore.Add` (lines 201–240). -/
def Add (env : Env) (s : RBDMirrorStore) (obj : Obj) :
    Except Err Unit × RBDMirrorStore × List ExtCall :=
  match metaAccessorUID obj with
  | none => (.error (.typeMismatch objectMetaErrMsg), s, [])
  | some uid =>
    match obj with
    | .pool p =>
      if p.MirroringEnabled then
        match ensureRBDCommandInput env s p.Namespace with
        | (.error e, s1, calls1) =>
          (.error (.rbdInputError p.Namespace p.Name e), s1, calls1)
        | (.ok _, s1, calls1) =>
          match rbdImageStatus env
              ((mlookup s1.rbdCommandInput p.Namespace).getD ⟨"", "", ""⟩)
              p.Name with
          | (.error e, calls2) =>
            (.error (.rbdCommandError e), s1, calls1 ++ calls2)
          | (.ok st, calls2) =>
            (.ok (),
             { s1 with Store := minsert s1.Store uid ⟨p.Name, p.Namespace, st⟩ },
             calls1 ++ calls2)
      else
        (.ok (), s, [])
    | _ => (.error (.typeMismatch unexpectedTypeMsg), s, [])

/-- `RBDMirrorStore.Update` (lines 242–244): alias of `Add`. -/
def Update (env : Env) (s : RBDMirrorStore) (obj : Obj) :
    Except Err Unit × RBDMirrorStore × List ExtCall :=
  Add env s obj

/-- `RBDMirrorStore.Delete` (lines 246–258). -/
def Delete (s : RBDMirrorStore) (obj : Obj) :
    Except Err Unit × RBDMirrorStore × List ExtCall :=
  match metaAccessorUID obj with
  | none => (.error (.typeMismatch objectMetaErrMsg), s, [])
  | some uid => (.ok (), { s with Store := merase s.Store uid }, [])

/-- The loop of `Replace` (lines 281–286): apply `Add` in input order,
aborting on the first error. -/
def replaceLoop (env : Env) :
    List Obj → RBDMirrorStore → Except Err Unit × RBDMirrorStore × List ExtCall
  | [], s => (.ok (), s, [])
  | o :: rest, s =>
    match Add env s o with
    | (.error e, s1, calls) => (.error e, s1, calls)
    | (.ok _, s1, calls) =>
      let r := replaceLoop env rest s1
      (r.1, r.2.1, calls ++ r.2.2)

/-- `RBDMirrorStore.Replace` (lines 276–289): clear the map, then `Add`
each item. -/
def Replace (env : Env) (s : RBDMirrorStore) (list : List Obj) :
    Except Err Unit × RBDMirrorStore × List ExtCall :=
  replaceLoop env list { s with Store := [] }

/-- One iteration of the `Resync` loop (lines 296–316): lazily ensure
credentials (on failure, log and continue), re-fetch the pool status (on
failure, log and continue), on success overwrite the record. -/
def resyncItem (env : Env) (s : RBDMirrorStore) (uid : String)
    (rec : RBDMirrorPoolStatusVerbose) : RBDMirrorStore × List ExtCall :=
  match ensureRBDCommandInput env s rec.PoolNamespace with
  | (.error _, s1, calls1) => (s1, calls1)
  | (.ok _, s1, calls1) =>
    match rbdImageStatus env
        ((mlookup s1.rbdCommandInput rec.PoolNamespace).getD ⟨"", "", ""⟩)
        rec.PoolName with
    | (.error _, calls2) => (s1, calls1 ++ calls2)
    | (.ok st, calls2) =>
      ({ s1 with
          Store := minsert s1.Store uid ⟨rec.PoolName, rec.PoolNamespace, st⟩ },
       calls1 ++ calls2)

/-- The `Resync` sweep over a snapshot of the store. -/
def resyncLoop (env : Env) :
    List (String × RBDMirrorPoolStatusVerbose) → RBDMirrorStore →
    RBDMirrorStore × List ExtCall
  | [], s => (s, [])
  | (uid, rec) :: rest, s =>
    let r1 := resyncItem env s uid rec
    let r2 := resyncLoop env rest r1.1
    (r2.1, r1.2 ++ r2.2)

/-- `RBDMirrorStore.Resync` (lines 291–319): sweep every cached entry;
always returns nil. -/
def Resync (env : Env) (s : RBDMirrorStore) :
    Except Err Unit × RBDMirrorStore × List ExtCall :=
  let r := resyncLoop env s.Store s
  (.ok (), r.1, r.2)

/-! ## Derived predicates -/

/-- Credential resolution for `ns` succeeds against `env` and the given
allow-list. -/
def credResolvable (env : Env) (allowed : List String) (ns : String) : Prop :=
  ∃ input calls, resolveCredential env allowed ns = (Except.ok input, calls)

/-- Some fetch of `pool` with credentials `input` succeeds. -/
def fetchOk (env : Env) (input : rbdCommandInput) (pool : String) : Prop :=
  ∃ st calls, rbdImageStatus env input pool = (Except.ok st, calls)

/-- The identity-describing fields of a cached record. -/
def namesOf (r : RBDMirrorPoolStatusVerbose) : String × String :=
  (r.PoolName, r.PoolNamespace)

/-! ## Concrete data for evaluating the theorems -/

def stOK : RBDMirrorStatusVerbose :=
  ⟨⟨"OK", "OK", "OK", ⟨0, 0, 0, 0, 0, 0, 0⟩⟩, [], []⟩

def stWarn : RBDMirrorStatusVerbose :=
  ⟨⟨"WARNING", "OK", "OK", ⟨0, 1, 0, 0, 0, 0, 0⟩⟩, [], []⟩

/-- A healthy environment: namespace `ns1` resolvable, pool `poolA`
fetchable. -/
def env0 : Env where
  secrets := fun ns =>
    if ns = "ns1" then .ok [("ceph-secret", "AQAB")] else .error "no secret"
  configmaps := fun ns =>
    if ns = "ns1" then .ok [("csi-cluster-config-json", "cfgjson")]
    else .error "no cm"
  unmarshalClusterConfig := fun d =>
    if d = "cfgjson" then .ok [⟨"c1", ["10.0.0.1:6789"]⟩] else .error "bad json"
  execRBD := fun _ _ _ pool =>
    if pool = "poolA" then .ok "statusjson" else .error "exec failed"
  unmarshalStatus := fun o =>
    if o = "statusjson" then .ok stOK else .error "bad status json"

/-- An environment in which every external call fails. -/
def envFail : Env where
  secrets := fun _ => .error "no secret"
  configmaps := fun _ => .error "no cm"
  unmarshalClusterConfig := fun _ => .error "bad json"
  execRBD := fun _ _ _ _ => .error "exec failed"
  unmarshalStatus := fun _ => .error "bad status json"

/-- Environment whose cluster-config JSON never decodes. -/
def envBadJson : Env where
  secrets := fun ns =>
    if ns = "ns1" then .ok [("ceph-secret", "AQAB")] else .error "no secret"
  configmaps := fun ns =>
    if ns = "ns1" then .ok [("csi-cluster-config-json", "notjson")]
    else .error "no cm"
  unmarshalClusterConfig := fun _ => .error "bad json"
  execRBD := fun _ _ _ _ => .error "exec failed"
  unmarshalStatus := fun _ => .error "bad status json"

def inp1 : rbdCommandInput := ⟨"10.0.0.1:6789", "admin", "AQAB"⟩

def st0 : RBDMirrorStore := ⟨[], [], ["ns1"]⟩

def poolA : CephBlockPool := ⟨"poolA", "ns1", "uA", true⟩
def poolB : CephBlockPool := ⟨"poolB", "ns2", "uB", true⟩
def poolC : CephBlockPool := ⟨"poolC", "ns1", "uC", true⟩
def poolDis : CephBlockPool := ⟨"poolD", "ns1", "uD", false⟩

def rec1 : RBDMirrorPoolStatusVerbose := ⟨"pool1", "ns1", stOK⟩
def recA : RBDMirrorPoolStatusVerbose := ⟨"poolA", "ns1", stWarn⟩

/-- Store with one entry, no resolved credentials. -/
def stPre : RBDMirrorStore := ⟨[("u1", rec1)], [], ["ns1"]⟩

/-- Store with one entry for `poolA` and resolved credentials for `ns1`. -/
def stRes : RBDMirrorStore := ⟨[("uA", recA)], [("ns1", inp1)], ["ns1"]⟩

/-- Store holding an entry under the disabled pool's identity. -/
def stDis : RBDMirrorStore := ⟨[("uD", rec1)], [], ["ns1"]⟩

/-- The pool object matching the pre-populated entry of `stPre`. -/
def poolU1 : CephBlockPool := ⟨"pool1", "ns1", "u1", true⟩

/-- Record written for `poolA` on a successful fetch against `env0`. -/
def recAOK : RBDMirrorPoolStatusVerbose := ⟨"poolA", "ns1", stOK⟩

/-- State after `Add env0 (Obj.pool poolA)` from a cleared `st0`. -/
def sAfterA : RBDMirrorStore := ⟨[("uA", recAOK)], [("ns1", inp1)], ["ns1"]⟩

/-- External calls performed by that `Add`. -/
def callsA : List ExtCall :=
  [.secretGet "ns1", .configMapGet "ns1",
   .rbdExec "10.0.0.1:6789" "admin" "AQAB" "poolA"]

/-- Error returned by `Add env0 (Obj.pool poolB)` (namespace not allowed). -/
def errB : Err := .rbdInputError "ns2" "poolB" (.notAllowedNamespace "ns2")

/-! ## Map lemmas -/

theorem mlookup_minsert {β : Type} (l : List (String × β)) (key : String)
    (v : β) (q : String) :
    mlookup (minsert l key v) q = if key = q then some v else mlookup l q := by
  induction l with
  | nil => simp [minsert, mlookup]
  | cons hd tl ih =>
    obtain ⟨k, v'⟩ := hd
    by_cases hk : k = key
    · subst hk
      by_cases hq : k = q
      · subst hq
        simp [minsert, mlookup]
      · simp [minsert, mlookup, hq]
    · have hkey : ¬key = k := fun h => hk h.symm
      by_cases hq1 : k = q
      · subst hq1
        simp [minsert, mlookup, hk, hkey]
      · by_cases hq2 : key = q
        · subst hq2
          simp [minsert, mlookup, hk, ih]
        · simp [minsert, mlookup, hk, hq1, hq2, ih]

theorem mlookup_merase {β : Type} (l : List (String × β)) (key q : String) :
    mlookup (merase l key) q = if key = q then none else mlookup l q := by
  induction l with
  | nil => simp [merase, mlookup]
  | cons hd tl ih =>
    obtain ⟨k, v⟩ := hd
    by_cases hk : k = key
    · subst hk
      by_cases hq : k = q
      · subst hq
        simp [merase, mlookup, ih]
      · simp [merase, mlookup, hq, ih]
    · by_cases hq1 : key = q
      · subst hq1
        simp [merase, mlookup, hk, ih]
      · simp [merase, mlookup, hk, hq1, ih]

theorem merase_eq_of_none {β : Type} (l : List (String × β)) (key : String)
    (h : mlookup l key = none) : merase l key = l := by
  induction l with
  | nil => rfl
  | cons hd tl ih =>
    obtain ⟨k, v⟩ := hd
    by_cases hk : k = key
    · simp [mlookup, hk] at h
    · simp [mlookup, hk] at h
      simp [merase, hk, ih h]

theorem mlookup_of_mem_nodup {β : Type} {l : List (String × β)} {k : String}
    {v : β} (hnd : (l.map Prod.fst).Nodup) (hmem : (k, v) ∈ l) :
    mlookup l k = some v := by
  induction l with
  | nil => cases hmem
  | cons hd tl ih =>
    obtain ⟨k', v'⟩ := hd
    simp only [List.map_cons, List.nodup_cons] at hnd
    rcases List.mem_cons.mp hmem with heq | hmem'
    · rw [Prod.mk.injEq] at heq
      obtain ⟨rfl, rfl⟩ := heq
      simp [mlookup]
    · by_cases hk : k' = k
      · subst hk
        exact absurd (List.mem_map.mpr ⟨(k', v), hmem', rfl⟩) hnd.1
      · simp only [mlookup, hk, if_false]
        exact ih hnd.2 hmem'

theorem exists_decomp_of_mlookup {β : Type} {l : List (String × β)}
    {k : String} {v : β} (h : mlookup l k = some v) :
    ∃ l1 l2, l = l1 ++ (k, v) :: l2 ∧ k ∉ l1.map Prod.fst := by
  induction l with
  | nil => simp [mlookup] at h
  | cons hd tl ih =>
    obtain ⟨k', v'⟩ := hd
    by_cases hk : k' = k
    · subst hk
      simp [mlookup] at h
      subst h
      exact ⟨[], tl, rfl, by simp⟩
    · simp only [mlookup, hk, if_false] at h
      obtain ⟨l1, l2, rfl, hnotin⟩ := ih h
      refine ⟨(k', v') :: l1, l2, rfl, ?_⟩
      simp [hnotin, Ne.symm hk]

/-! ## State-preservation lemmas -/

theorem withRBD_store_eq (env : Env) (s : RBDMirrorStore) (ns : String) :
    (WithRBDCommandInput env s ns).2.1.Store = s.Store := by
  unfold WithRBDCommandInput
  rcases resolveCredential env s.allowedNamespaces ns with ⟨r, calls⟩
  cases r <;> rfl

theorem withRBD_allowed_eq (env : Env) (s : RBDMirrorStore) (ns : String) :
    (WithRBDCommandInput env s ns).2.1.allowedNamespaces =
      s.allowedNamespaces := by
  unfold WithRBDCommandInput
  rcases resolveCredential env s.allowedNamespaces ns with ⟨r, calls⟩
  cases r <;> rfl

theorem withRBD_error_state (env : Env) (s : RBDMirrorStore) (ns : String)
    (e : Err) (h : (WithRBDCommandInput env s ns).1 = Except.error e) :
    (WithRBDCommandInput env s ns).2.1 = s := by
  unfold WithRBDCommandInput at h ⊢
  rcases hres : resolveCredential env s.allowedNamespaces ns with ⟨r, calls⟩
  rw [hres] at h
  cases r with
  | error e2 => rfl
  | ok inp => simp at h

theorem ensure_store_eq (env : Env) (s : RBDMirrorStore) (ns : String) :
    (ensureRBDCommandInput env s ns).2.1.Store = s.Store := by
  unfold ensureRBDCommandInput
  split
  · rfl
  · exact withRBD_store_eq env s ns

theorem ensure_allowed_eq (env : Env) (s : RBDMirrorStore) (ns : String) :
    (ensureRBDCommandInput env s ns).2.1.allowedNamespaces =
      s.allowedNamespaces := by
  unfold ensureRBDCommandInput
  split
  · rfl
  · exact withRBD_allowed_eq env s ns

theorem ensure_error_state (env : Env) (s : RBDMirrorStore) (ns : String)
    (e : Err) (h : (ensureRBDCommandInput env s ns).1 = Except.error e) :
    (ensureRBDCommandInput env s ns).2.1 = s := by
  by_cases hm : (mlookup s.rbdCommandInput ns).isSome
  · simp [ensureRBDCommandInput, hm] at h
  · simp only [ensureRBDCommandInput, hm, if_false, Bool.false_eq_true] at h ⊢
    exact withRBD_error_state env s ns e h

theorem ensure_cached (env : Env) (s : RBDMirrorStore) (ns : String)
    (i : rbdCommandInput) (h : mlookup s.rbdCommandInput ns = some i) :
    ensureRBDCommandInput env s ns = (Except.ok (), s, []) := by
  simp [ensureRBDCommandInput, h]

theorem ensure_cred_some (env : Env) (s : RBDMirrorStore) (ns2 ns : String)
    (i : rbdCommandInput) (h : mlookup s.rbdCommandInput ns = some i) :
    mlookup (ensureRBDCommandInput env s ns2).2.1.rbdCommandInput ns =
      some i := by
  by_cases hm : (mlookup s.rbdCommandInput ns2).isSome
  · simp [ensureRBDCommandInput, hm, h]
  · have hnone : mlookup s.rbdCommandInput ns2 = none := by
      cases hx : mlookup s.rbdCommandInput ns2
      · rfl
      · rw [hx] at hm; simp at hm
    simp only [ensureRBDCommandInput, hm, if_false, Bool.false_eq_true]
    unfold WithRBDCommandInput
    rcases hres : resolveCredential env s.allowedNamespaces ns2 with ⟨r, calls⟩
    cases r with
    | error e => exact h
    | ok inp =>
      have hne : ¬ns2 = ns := by
        intro hEq
        rw [hEq, h] at hnone
        cases hnone
      simp [mlookup_minsert, hne, h]

theorem ensure_cred_none_unres (env : Env) (s : RBDMirrorStore) (ns : String)
    (hnone : mlookup s.rbdCommandInput ns = none)
    (hunres : ¬credResolvable env s.allowedNamespaces ns) (ns2 : String) :
    mlookup (ensureRBDCommandInput env s ns2).2.1.rbdCommandInput ns = none := by
  by_cases hm : (mlookup s.rbdCommandInput ns2).isSome
  · simp [ensureRBDCommandInput, hm, hnone]
  · simp only [ensureRBDCommandInput, hm, if_false, Bool.false_eq_true]
    unfold WithRBDCommandInput
    rcases hres : resolveCredential env s.allowedNamespaces ns2 with ⟨r, calls⟩
    cases r with
    | error e => exact hnone
    | ok inp =>
      have hne : ¬ns2 = ns := by
        intro hEq
        exact hunres ⟨inp, calls, by rw [hEq] at hres; exact hres⟩
      simp [mlookup_minsert, hne, hnone]

theorem ensure_cred_unres_state (env : Env) (s : RBDMirrorStore) (ns : String)
    (hnone : mlookup s.rbdCommandInput ns = none)
    (hunres : ¬credResolvable env s.allowedNamespaces ns) :
    (ensureRBDCommandInput env s ns).2.1 = s := by
  simp only [ensureRBDCommandInput, hnone, Option.isSome_none,
    Bool.false_eq_true, if_false]
  unfold WithRBDCommandInput
  rcases hres : resolveCredential env s.allowedNamespaces ns with ⟨r, calls⟩
  cases r with
  | error e => rfl
  | ok inp => exact absurd ⟨inp, calls, hres⟩ hunres

theorem ensure_unres_error (env : Env) (s : RBDMirrorStore) (ns : String)
    (hnone : mlookup s.rbdCommandInput ns = none)
    (hunres : ¬credResolvable env s.allowedNamespaces ns) :
    ∃ e calls, ensureRBDCommandInput env s ns = (Except.error e, s, calls) := by
  simp only [ensureRBDCommandInput, hnone, Option.isSome_none,
    Bool.false_eq_true, if_false]
  unfold WithRBDCommandInput
  rcases hres : resolveCredential env s.allowedNamespaces ns with ⟨r, calls⟩
  cases r with
  | error e => exact ⟨e, calls, rfl⟩
  | ok inp => exact absurd ⟨inp, calls, hres⟩ hunres

/-- `Add` returning an error never mutates the `Store` map. -/
theorem Add_error_store_aux (env : Env) (s : RBDMirrorStore) (obj : Obj)
    (e : Err) (h : (Add env s obj).1 = Except.error e) :
    (Add env s obj).2.1.Store = s.Store := by
  cases obj with
  | noMeta => rfl
  | withMeta uid => rfl
  | pool p =>
    unfold Add at h ⊢
    by_cases hen : p.MirroringEnabled
    · simp only [metaAccessorUID, hen, if_true] at h ⊢
      rcases hens : ensureRBDCommandInput env s p.Namespace with ⟨r1, s1, c1⟩
      rw [hens] at h
      have hst := ensure_store_eq env s p.Namespace
      rw [hens] at hst
      dsimp only at hst
      cases r1 with
      | error e1 => dsimp only; exact hst
      | ok u =>
        dsimp only at h ⊢
        rcases hf : rbdImageStatus env
            ((mlookup s1.rbdCommandInput p.Namespace).getD ⟨"", "", ""⟩)
            p.Name with ⟨r2, c2⟩
        rw [hf] at h
        cases r2 with
        | error e2 => dsimp only; exact hst
        | ok st => dsimp only at h; simp at h
    · simp only [metaAccessorUID, hen, if_false] at h
      simp at h

/-! ## Resync item lemmas -/

/-- One resync item preserves the credential map (up to the lazy
resolution), the allow-list, and either leaves the store untouched or
overwrites exactly its own key with the snapshot names. -/
theorem resyncItem_state_cases (env : Env) (s : RBDMirrorStore) (uid : String)
    (rec : RBDMirrorPoolStatusVerbose) :
    (resyncItem env s uid rec).1.rbdCommandInput =
        (ensureRBDCommandInput env s rec.PoolNamespace).2.1.rbdCommandInput ∧
    (resyncItem env s uid rec).1.allowedNamespaces = s.allowedNamespaces ∧
    ((resyncItem env s uid rec).1.Store = s.Store ∨
      ∃ st, (resyncItem env s uid rec).1.Store =
        minsert s.Store uid ⟨rec.PoolName, rec.PoolNamespace, st⟩) := by
  unfold resyncItem
  rcases hens : ensureRBDCommandInput env s rec.PoolNamespace with ⟨r1, s1, c1⟩
  have hst := ensure_store_eq env s rec.PoolNamespace
  have hal := ensure_allowed_eq env s rec.PoolNamespace
  rw [hens] at hst hal
  dsimp only at hst hal
  cases r1 with
  | error e1 =>
    dsimp only
    exact ⟨rfl, hal, Or.inl hst⟩
  | ok u =>
    dsimp only
    rcases hf : rbdImageStatus env
        ((mlookup s1.rbdCommandInput rec.PoolNamespace).getD ⟨"", "", ""⟩)
        rec.PoolName with ⟨r2, c2⟩
    cases r2 with
    | error e2 =>
      dsimp only
      exact ⟨rfl, hal, Or.inl hst⟩
    | ok st =>
      dsimp only
      exact ⟨rfl, hal, Or.inr ⟨st, by rw [hst]⟩⟩

/-- If every fetch of this pool fails, the item leaves the store map
untouched. -/
theorem resyncItem_fail_fetch (env : Env) (s : RBDMirrorStore) (uid : String)
    (rec : RBDMirrorPoolStatusVerbose)
    (h : ∀ inp, ¬fetchOk env inp rec.PoolName) :
    (resyncItem env s uid rec).1.Store = s.Store := by
  unfold resyncItem
  rcases hens : ensureRBDCommandInput env s rec.PoolNamespace with ⟨r1, s1, c1⟩
  have hst := ensure_store_eq env s rec.PoolNamespace
  rw [hens] at hst
  dsimp only at hst
  cases r1 with
  | error e1 => dsimp only; exact hst
  | ok u =>
    dsimp only
    rcases hf : rbdImageStatus env
        ((mlookup s1.rbdCommandInput rec.PoolNamespace).getD ⟨"", "", ""⟩)
        rec.PoolName with ⟨r2, c2⟩
    cases r2 with
    | error e2 => dsimp only; exact hst
    | ok st => exact absurd ⟨st, c2, hf⟩ (h _)

/-- If the item's namespace is unresolved and unresolvable, the item is a
complete no-op on the state. -/
theorem resyncItem_fail_cred (env : Env) (s : RBDMirrorStore) (uid : String)
    (rec : RBDMirrorPoolStatusVerbose)
    (hnone : mlookup s.rbdCommandInput rec.PoolNamespace = none)
    (hunres : ¬credResolvable env s.allowedNamespaces rec.PoolNamespace) :
    (resyncItem env s uid rec).1 = s := by
  obtain ⟨e, calls, hens⟩ :=
    ensure_unres_error env s rec.PoolNamespace hnone hunres
  unfold resyncItem
  rw [hens]

/-- With cached credentials and a successful fetch, the item overwrites
exactly its own key. -/
theorem resyncItem_succ (env : Env) (s : RBDMirrorStore) (uid : String)
    (rec : RBDMirrorPoolStatusVerbose) (inp : rbdCommandInput)
    (st : RBDMirrorStatusVerbose) (calls : List ExtCall)
    (hcred : mlookup s.rbdCommandInput rec.PoolNamespace = some inp)
    (hfetch : rbdImageStatus env inp rec.PoolName = (Except.ok st, calls)) :
    (resyncItem env s uid rec).1 =
      { s with
        Store := minsert s.Store uid ⟨rec.PoolName, rec.PoolNamespace, st⟩ } := by
  unfold resyncItem
  rw [ensure_cached env s rec.PoolNamespace inp hcred]
  dsimp only
  rw [hcred]
  simp only [Option.getD_some]
  rw [hfetch]

/-- If the item's namespace has a cached credential and the fetch with
that credential fails, the item is a complete no-op on the state: this is
the credential actually used, whether or not some other credential could
have succeeded. -/
theorem resyncItem_fail_cached (env : Env) (s : RBDMirrorStore)
    (uid : String) (rec : RBDMirrorPoolStatusVerbose) (inp : rbdCommandInput)
    (e : Err)
    (hcred : mlookup s.rbdCommandInput rec.PoolNamespace = some inp)
    (hfail : (rbdImageStatus env inp rec.PoolName).1 = Except.error e) :
    (resyncItem env s uid rec).1 = s := by
  unfold resyncItem
  rw [ensure_cached env s rec.PoolNamespace inp hcred]
  dsimp only
  rw [hcred]
  simp only [Option.getD_some]
  rcases hf : rbdImageStatus env inp rec.PoolName with ⟨r2, c2⟩
  rw [hf] at hfail
  dsimp only at hfail
  subst hfail
  rfl

/-! ## Resync loop lemmas -/

theorem resyncLoop_allowed_eq (env : Env) :
    ∀ (snap : List (String × RBDMirrorPoolStatusVerbose)) (s : RBDMirrorStore),
    (resyncLoop env snap s).1.allowedNamespaces = s.allowedNamespaces := by
  intro snap
  induction snap with
  | nil => intro s; rfl
  | cons hd tl ih =>
    intro s
    obtain ⟨uid, rec⟩ := hd
    simp only [resyncLoop]
    rw [ih]
    exact (resyncItem_state_cases env s uid rec).2.1

theorem resyncLoop_store_notmem (env : Env) :
    ∀ (snap : List (String × RBDMirrorPoolStatusVerbose)) (s : RBDMirrorStore)
    (uid : String), uid ∉ snap.map Prod.fst →
    mlookup (resyncLoop env snap s).1.Store uid = mlookup s.Store uid := by
  intro snap
  induction snap with
  | nil => intro s uid _; rfl
  | cons hd tl ih =>
    intro s uid h
    obtain ⟨k, rec⟩ := hd
    simp only [List.map_cons, List.mem_cons, not_or] at h
    simp only [resyncLoop]
    rw [ih _ uid h.2]
    rcases (resyncItem_state_cases env s k rec).2.2 with hst | ⟨st, hst⟩
    · rw [hst]
    · rw [hst, mlookup_minsert, if_neg (fun hh => h.1 hh.symm)]

theorem resyncLoop_cred_some (env : Env) (ns : String) (i : rbdCommandInput) :
    ∀ (snap : List (String × RBDMirrorPoolStatusVerbose)) (s : RBDMirrorStore),
    mlookup s.rbdCommandInput ns = some i →
    mlookup (resyncLoop env snap s).1.rbdCommandInput ns = some i := by
  intro snap
  induction snap with
  | nil => intro s h; exact h
  | cons hd tl ih =>
    intro s h
    obtain ⟨k, rec⟩ := hd
    simp only [resyncLoop]
    apply ih
    rw [(resyncItem_state_cases env s k rec).1]
    exact ensure_cred_some env s rec.PoolNamespace ns i h

theorem resyncLoop_fst_append (env : Env) :
    ∀ (a b : List (String × RBDMirrorPoolStatusVerbose)) (s : RBDMirrorStore),
    (resyncLoop env (a ++ b) s).1 = (resyncLoop env b (resyncLoop env a s).1).1 := by
  intro a
  induction a with
  | nil => intro b s; rfl
  | cons hd tl ih =>
    intro b s
    obtain ⟨k, rec⟩ := hd
    simp only [List.cons_append, resyncLoop]
    exact ih b _

/-- Sweep invariant for an entry whose pool can never be fetched. -/
theorem resyncLoop_ff (env : Env) (pn : String)
    (hf : ∀ inp, ¬fetchOk env inp pn) :
    ∀ (snap : List (String × RBDMirrorPoolStatusVerbose)) (s : RBDMirrorStore)
    (uid : String) (rec : RBDMirrorPoolStatusVerbose),
    mlookup s.Store uid = some rec →
    (∀ r', (uid, r') ∈ snap → r'.PoolName = pn) →
    mlookup (resyncLoop env snap s).1.Store uid = some rec := by
  intro snap
  induction snap with
  | nil => intro s uid rec h _; exact h
  | cons hd tl ih =>
    intro s uid rec h hsnap
    obtain ⟨k, r'⟩ := hd
    simp only [resyncLoop]
    by_cases hk : k = uid
    · subst hk
      have hpn : r'.PoolName = pn := hsnap r' (List.mem_cons_self _ _)
      have hf' : ∀ inp, ¬fetchOk env inp r'.PoolName := by
        rw [hpn]; exact hf
      have hstore := resyncItem_fail_fetch env s k r' hf'
      refine ih _ _ _ ?_ (fun r'' hmem => hsnap r'' (List.mem_cons_of_mem _ hmem))
      rw [hstore]; exact h
    · have hpres : mlookup (resyncItem env s k r').1.Store uid = some rec := by
        rcases (resyncItem_state_cases env s k r').2.2 with hst | ⟨st, hst⟩
        · rw [hst]; exact h
        · rw [hst, mlookup_minsert, if_neg hk]; exact h
      exact ih _ _ _ hpres
        (fun r'' hmem => hsnap r'' (List.mem_cons_of_mem _ hmem))

/-- Sweep invariant for an entry whose namespace can never be resolved. -/
theorem resyncLoop_cf (env : Env) (nsX : String) :
    ∀ (snap : List (String × RBDMirrorPoolStatusVerbose)) (s : RBDMirrorStore)
    (uid : String) (rec : RBDMirrorPoolStatusVerbose),
    mlookup s.Store uid = some rec →
    mlookup s.rbdCommandInput nsX = none →
    ¬credResolvable env s.allowedNamespaces nsX →
    (∀ r', (uid, r') ∈ snap → r'.PoolNamespace = nsX) →
    mlookup (resyncLoop env snap s).1.Store uid = some rec := by
  intro snap
  induction snap with
  | nil => intro s uid rec h _ _ _; exact h
  | cons hd tl ih =>
    intro s uid rec h hnone hunres hsnap
    obtain ⟨k, r'⟩ := hd
    simp only [resyncLoop]
    by_cases hk : k = uid
    · subst hk
      have hns : r'.PoolNamespace = nsX := hsnap r' (List.mem_cons_self _ _)
      have hitem : (resyncItem env s k r').1 = s := by
        refine resyncItem_fail_cred env s k r' ?_ ?_
        · rw [hns]; exact hnone
        · rw [hns]; exact hunres
      rw [hitem]
      exact ih _ _ _ h hnone hunres
        (fun r'' hmem => hsnap r'' (List.mem_cons_of_mem _ hmem))
    · have hpres : mlookup (resyncItem env s k r').1.Store uid = some rec := by
        rcases (resyncItem_state_cases env s k r').2.2 with hst | ⟨st, hst⟩
        · rw [hst]; exact h
        · rw [hst, mlookup_minsert, if_neg hk]; exact h
      have hcred : mlookup (resyncItem env s k r').1.rbdCommandInput nsX = none := by
        rw [(resyncItem_state_cases env s k r').1]
        exact ensure_cred_none_unres env s nsX hnone hunres r'.PoolNamespace
      have hunres' :
          ¬credResolvable env (resyncItem env s k r').1.allowedNamespaces nsX := by
        rw [(resyncItem_state_cases env s k r').2.1]
        exact hunres
      exact ih _ _ _ hpres hcred hunres'
        (fun r'' hmem => hsnap r'' (List.mem_cons_of_mem _ hmem))

/-- Sweep invariant: identity fields of every entry are preserved. -/
theorem resyncLoop_names (env : Env) :
    ∀ (snap : List (String × RBDMirrorPoolStatusVerbose)) (s : RBDMirrorStore),
    (∀ (u : String) (r' : RBDMirrorPoolStatusVerbose), (u, r') ∈ snap →
      Option.map namesOf (mlookup s.Store u) = some (namesOf r')) →
    ∀ u, Option.map namesOf (mlookup (resyncLoop env snap s).1.Store u) =
      Option.map namesOf (mlookup s.Store u) := by
  intro snap
  induction snap with
  | nil => intro s _ u; rfl
  | cons hd tl ih =>
    intro s hsnap u
    obtain ⟨k, r'⟩ := hd
    have hk := hsnap k r' (List.mem_cons_self _ _)
    have hpt : ∀ w,
        Option.map namesOf (mlookup (resyncItem env s k r').1.Store w) =
          Option.map namesOf (mlookup s.Store w) := by
      intro w
      rcases (resyncItem_state_cases env s k r').2.2 with hst | ⟨st, hst⟩
      · rw [hst]
      · rw [hst, mlookup_minsert]
        by_cases hw : k = w
        · subst hw
          rw [if_pos rfl, hk]
          simp [namesOf]
        · rw [if_neg hw]
    simp only [resyncLoop]
    rw [ih _ (fun u2 r2 hmem => by
      rw [hpt u2]; exact hsnap u2 r2 (List.mem_cons_of_mem _ hmem)) u, hpt u]

/-! ## Replace loop lemma -/

theorem replaceLoop_ok_append (env : Env) :
    ∀ (a : List Obj) (s s1 : RBDMirrorStore) (c1 : List ExtCall),
    replaceLoop env a s = (Except.ok (), s1, c1) →
    ∀ b, replaceLoop env (a ++ b) s =
      ((replaceLoop env b s1).1, (replaceLoop env b s1).2.1,
       c1 ++ (replaceLoop env b s1).2.2) := by
  intro a
  induction a with
  | nil =>
    intro s s1 c1 h b
    simp only [replaceLoop, Prod.mk.injEq] at h
    obtain ⟨-, h2, h3⟩ := h
    subst h2; subst h3
    simp only [List.nil_append]
  | cons o a' ih =>
    intro s s1 c1 h b
    simp only [replaceLoop] at h
    rcases hadd : Add env s o with ⟨r0, sA, cA⟩
    rw [hadd] at h
    cases r0 with
    | error e => dsimp only at h; simp at h
    | ok u =>
      dsimp only at h
      rcases hrl : replaceLoop env a' sA with ⟨r1, s1', c1'⟩
      rw [hrl] at h
      dsimp only at h
      simp only [Prod.mk.injEq] at h
      obtain ⟨h1, h2, h3⟩ := h
      subst h2; subst h3
      simp only [List.cons_append, replaceLoop]
      rw [hadd]
      dsimp only
      have hrl2 : replaceLoop env a' sA = (Except.ok (), s1', c1') := by
        rw [hrl, h1]
      simp only [List.append_eq]
      rw [ih sA s1' c1' hrl2 b]
      simp [List.append_assoc]

/-- Successful resolution: the cached triple is built from the first
monitor of the first record, the fixed "admin" id and the secret key. -/
theorem withRBD_success_aux (env : Env) (s : RBDMirrorStore) (ns : String)
    (sd cm : List (String × String)) (raw key cid m : String)
    (ms : List String) (rest : List csiClusterConfig)
    (hns : ns ∈ s.allowedNamespaces)
    (hs : env.secrets ns = Except.ok sd)
    (hk : mlookup sd "ceph-secret" = some key)
    (hc : env.configmaps ns = Except.ok cm)
    (hr : mlookup cm "csi-cluster-config-json" = some raw)
    (hu : env.unmarshalClusterConfig raw = Except.ok (⟨cid, m :: ms⟩ :: rest)) :
    WithRBDCommandInput env s ns =
      (Except.ok (),
       { s with rbdCommandInput :=
          minsert s.rbdCommandInput ns ⟨m, "admin", key⟩ },
       [.secretGet ns, .configMapGet ns]) := by
  unfold WithRBDCommandInput resolveCredential
  simp only [hns, if_true, hs, hk, hc, hr, hu]

/-! ## Claim theorems -/

/-- Claim C1: `Replace` clears the entire map and then applies `Add` to each
item in input order with first-error-abort semantics: if every item of
`pre` is added successfully starting from the cleared store and `b`'s `Add`
then fails with `e`, `Replace (pre ++ b :: post)` returns exactly `e`, the
items of `post` are never applied, and the map is left exactly as populated
by the items processed before the failure. -/
theorem replace_first_error_abort (env : Env) (s : RBDMirrorStore)
    (pre : List Obj) (b : Obj) (post : List Obj) (s1 : RBDMirrorStore)
    (c1 : List ExtCall) (e : Err) (s2 : RBDMirrorStore) (c2 : List ExtCall)
    (h1 : replaceLoop env pre { s with Store := [] } = (Except.ok (), s1, c1))
    (h2 : Add env s1 b = (Except.error e, s2, c2)) :
    Replace env s (pre ++ b :: post) = (Except.error e, s2, c1 ++ c2) ∧
    s2.Store = s1.Store := by
  constructor
  · unfold Replace
    rw [replaceLoop_ok_append env pre { s with Store := [] } s1 c1 h1
      (b :: post)]
    simp only [replaceLoop]
    rw [h2]
  · have hstore := Add_error_store_aux env s1 b e (by rw [h2])
    rw [h2] at hstore
    exact hstore

/-- Witness for C1: `Replace([A, B, C])` with B failing leaves exactly A's
record and returns B's error. -/
theorem replace_first_error_abort_witness :
    Replace env0 st0 [Obj.pool poolA, Obj.pool poolB, Obj.pool poolC] =
      (Except.error errB, sAfterA, callsA ++ []) ∧
    sAfterA.Store = sAfterA.Store :=
  replace_first_error_abort env0 st0 [Obj.pool poolA] (Obj.pool poolB)
    [Obj.pool poolC] sAfterA callsA errB sAfterA [] (by decide) (by decide)

/-- Claim C3: whenever `Add` (and hence `Update`) returns an error — bad
object, credential-resolution failure or fetch failure — the cache map is
left exactly as it was. -/
theorem add_error_no_mutation (env : Env) (s : RBDMirrorStore) (obj : Obj)
    (e : Err) (h : (Add env s obj).1 = Except.error e) :
    (Add env s obj).2.1.Store = s.Store ∧
    (Update env s obj).2.1.Store = s.Store :=
  ⟨Add_error_store_aux env s obj e h, Add_error_store_aux env s obj e h⟩

/-- Witness for C3: a failing `Add` against the all-failing environment
leaves the map unchanged. -/
theorem add_error_no_mutation_witness :
    (Add envFail st0 (Obj.pool poolA)).2.1.Store = st0.Store ∧
    (Update envFail st0 (Obj.pool poolA)).2.1.Store = st0.Store :=
  add_error_no_mutation envFail st0 (Obj.pool poolA)
    (.rbdInputError "ns1" "poolA" (.secretLookup "ns1" "no secret"))
    (by decide)

/-- Claim C4: for a pool event with mirroring disabled, `Add` and `Update`
return nil, leave the entire state (in particular any existing entry for
that identity) untouched, and perform no external calls. -/
theorem add_disabled_noop (env : Env) (s : RBDMirrorStore)
    (p : CephBlockPool) (h : p.MirroringEnabled = false) :
    Add env s (Obj.pool p) = (Except.ok (), s, []) ∧
    Update env s (Obj.pool p) = (Except.ok (), s, []) := by
  constructor <;> simp [Add, Update, metaAccessorUID, h]

/-- Witness for C4: a disabled pool whose identity already has an entry. -/
theorem add_disabled_noop_witness :
    Add env0 stDis (Obj.pool poolDis) = (Except.ok (), stDis, []) ∧
    Update env0 stDis (Obj.pool poolDis) = (Except.ok (), stDis, []) :=
  add_disabled_noop env0 stDis poolDis rfl

/-- Claim C6: for a namespace outside the allow-list, credential resolution
fails with the not-allowed error, performs no external lookups, and leaves
the state (in particular the credential cache) unchanged. -/
theorem resolve_not_allowed (env : Env) (s : RBDMirrorStore) (ns : String)
    (h : ns ∉ s.allowedNamespaces) :
    WithRBDCommandInput env s ns =
      (Except.error (.notAllowedNamespace ns), s, []) := by
  unfold WithRBDCommandInput resolveCredential
  simp [h]

/-- Witness for C6. -/
theorem resolve_not_allowed_witness :
    WithRBDCommandInput env0 st0 "ns2" =
      (Except.error (.notAllowedNamespace "ns2"), st0, []) :=
  resolve_not_allowed env0 st0 "ns2" (by decide)

/-- Claim C9: `rbdImageStatus` fails with the incomplete-credentials guard
and spawns no process when monitor, id and key are all empty; otherwise it
spawns exactly one external process per call (no retry). -/
theorem fetch_guard_single_spawn (env : Env) (inp : rbdCommandInput)
    (pool : String) :
    ((inp.monitor = "" ∧ inp.id = "" ∧ inp.key = "") →
      rbdImageStatus env inp pool =
        (Except.error .incompleteCredentials, [])) ∧
    (¬(inp.monitor = "" ∧ inp.id = "" ∧ inp.key = "") →
      (rbdImageStatus env inp pool).2 =
        [ExtCall.rbdExec inp.monitor inp.id inp.key pool]) := by
  constructor
  · intro h
    simp [rbdImageStatus, h]
  · intro h
    unfold rbdImageStatus
    rw [if_neg h]
    rcases env.execRBD inp.monitor inp.id inp.key pool with msg | out
    · rfl
    · dsimp only
      rcases env.unmarshalStatus out with m2 | st <;> rfl

/-- Witness for C9: the all-empty triple is rejected without a spawn; a
non-empty triple spawns exactly once. -/
theorem fetch_guard_single_spawn_witness :
    rbdImageStatus envFail ⟨"", "", ""⟩ "pool1" =
      (Except.error .incompleteCredentials, []) ∧
    (rbdImageStatus envFail inp1 "pool1").2 =
      [ExtCall.rbdExec inp1.monitor inp1.id inp1.key "pool1"] :=
  ⟨(fetch_guard_single_spawn envFail ⟨"", "", ""⟩ "pool1").1 (by decide),
   (fetch_guard_single_spawn envFail inp1 "pool1").2 (by decide)⟩

/-- Claim C8: `Delete` extracts the identity from its argument, fails with
the type-mismatch error on input without extractable identity (leaving the
state unchanged), otherwise removes the entry for that identity under the
lock; deleting an absent identity is a successful no-op, and `Add` followed
by `Delete` of the same object leaves the cache without that key. -/
theorem delete_semantics (s : RBDMirrorStore) (obj : Obj) :
    (metaAccessorUID obj = none →
      Delete s obj = (Except.error (.typeMismatch objectMetaErrMsg), s, [])) ∧
    (∀ uid, metaAccessorUID obj = some uid →
      Delete s obj =
        (Except.ok (), { s with Store := merase s.Store uid }, []) ∧
      mlookup (Delete s obj).2.1.Store uid = none ∧
      (mlookup s.Store uid = none → (Delete s obj).2.1.Store = s.Store)) ∧
    (∀ (env : Env) (p : CephBlockPool), obj = Obj.pool p →
      mlookup (Delete (Add env s obj).2.1 obj).2.1.Store p.UID = none) := by
  refine ⟨?_, ?_, ?_⟩
  · intro h
    cases obj with
    | pool p => simp [metaAccessorUID] at h
    | withMeta u => simp [metaAccessorUID] at h
    | noMeta => rfl
  · intro uid h
    cases obj with
    | noMeta => simp [metaAccessorUID] at h
    | pool p =>
      simp only [metaAccessorUID, Option.some.injEq] at h
      subst h
      refine ⟨rfl, ?_, ?_⟩
      · show mlookup (merase s.Store p.UID) p.UID = none
        rw [mlookup_merase, if_pos rfl]
      · intro hn
        show merase s.Store p.UID = s.Store
        exact merase_eq_of_none s.Store p.UID hn
    | withMeta u =>
      simp only [metaAccessorUID, Option.some.injEq] at h
      subst h
      refine ⟨rfl, ?_, ?_⟩
      · show mlookup (merase s.Store u) u = none
        rw [mlookup_merase, if_pos rfl]
      · intro hn
        show merase s.Store u = s.Store
        exact merase_eq_of_none s.Store u hn
  · intro env p hobj
    subst hobj
    show mlookup (merase (Add env s (Obj.pool p)).2.1.Store p.UID) p.UID = none
    rw [mlookup_merase, if_pos rfl]

/-- Witness for C8: deleting the pre-populated entry removes exactly that
key. -/
theorem delete_semantics_witness :
    Delete stPre (Obj.pool poolU1) =
      (Except.ok (), { stPre with Store := merase stPre.Store "u1" }, []) ∧
    mlookup (Delete stPre (Obj.pool poolU1)).2.1.Store "u1" = none :=
  ⟨((delete_semantics stPre (Obj.pool poolU1)).2.1 "u1" rfl).1,
   ((delete_semantics stPre (Obj.pool poolU1)).2.1 "u1" rfl).2.1⟩

/-- Claim C5: when the secret field and configmap field both resolve, the
credential triple is (first monitor of the first cluster-config record,
"admin", the secret key), it is cached under the namespace so that the lazy
resolution for an already-resolved namespace performs no external lookups,
and a failed resolution is never cached (the state is left unchanged). -/
theorem resolve_success_and_cache (env : Env) (s : RBDMirrorStore)
    (ns : String) (sd cm : List (String × String)) (raw key cid m : String)
    (ms : List String) (rest : List csiClusterConfig)
    (hns : ns ∈ s.allowedNamespaces)
    (hs : env.secrets ns = Except.ok sd)
    (hk : mlookup sd "ceph-secret" = some key)
    (hc : env.configmaps ns = Except.ok cm)
    (hr : mlookup cm "csi-cluster-config-json" = some raw)
    (hu : env.unmarshalClusterConfig raw = Except.ok (⟨cid, m :: ms⟩ :: rest)) :
    WithRBDCommandInput env s ns =
      (Except.ok (),
       { s with rbdCommandInput :=
          minsert s.rbdCommandInput ns ⟨m, "admin", key⟩ },
       [.secretGet ns, .configMapGet ns]) ∧
    (∀ s2 : RBDMirrorStore,
      mlookup s2.rbdCommandInput ns = some ⟨m, "admin", key⟩ →
      ensureRBDCommandInput env s2 ns = (Except.ok (), s2, [])) ∧
    (∀ (env2 : Env) (s2 : RBDMirrorStore) (ns2 : String) (e : Err),
      (WithRBDCommandInput env2 s2 ns2).1 = Except.error e →
      (WithRBDCommandInput env2 s2 ns2).2.1 = s2) := by
  refine ⟨?_, ?_, ?_⟩
  · exact withRBD_success_aux env s ns sd cm raw key cid m ms rest hns hs hk
      hc hr hu
  · intro s2 h2
    exact ensure_cached env s2 ns _ h2
  · intro env2 s2 ns2 e2 h2
    exact withRBD_error_state env2 s2 ns2 e2 h2

/-- Witness for C5: resolution against `env0` yields the expected triple,
and a second resolution for the already-resolved namespace is a no-op with
no external calls. -/
theorem resolve_success_and_cache_witness :
    WithRBDCommandInput env0 st0 "ns1" =
      (Except.ok (),
       { st0 with rbdCommandInput := minsert st0.rbdCommandInput "ns1" inp1 },
       [.secretGet "ns1", .configMapGet "ns1"]) ∧
    ensureRBDCommandInput env0 sAfterA "ns1" = (Except.ok (), sAfterA, []) :=
  have ht := resolve_success_and_cache env0 st0 "ns1"
    [("ceph-secret", "AQAB")] [("csi-cluster-config-json", "cfgjson")]
    "cfgjson" "AQAB" "c1" "10.0.0.1:6789" [] [] (by decide) (by decide)
    (by decide) (by decide) (by decide) (by decide)
  ⟨ht.1, ht.2.1 sAfterA (by decide)⟩

/-- Claim C7: with the allow-list, secret and configmap reads succeeding,
resolution fails with the parse error when the JSON does not decode, with
the no-cluster-config error when the decoded sequence is empty, and with
the no-monitors error when the first record's monitor sequence is empty; on
success only the first monitor of the first record determines the cached
triple (monitors beyond the first and records beyond the first are
arbitrary here and do not influence it). -/
theorem resolve_config_errors (env : Env) (s : RBDMirrorStore) (ns : String)
    (sd cm : List (String × String)) (raw key : String)
    (hns : ns ∈ s.allowedNamespaces)
    (hs : env.secrets ns = Except.ok sd)
    (hk : mlookup sd "ceph-secret" = some key)
    (hc : env.configmaps ns = Except.ok cm)
    (hr : mlookup cm "csi-cluster-config-json" = some raw) :
    (∀ msg, env.unmarshalClusterConfig raw = Except.error msg →
      (WithRBDCommandInput env s ns).1 =
        Except.error (.configParse ns msg)) ∧
    (env.unmarshalClusterConfig raw = Except.ok [] →
      (WithRBDCommandInput env s ns).1 =
        Except.error (.noClusterConfig ns)) ∧
    (∀ cid rest,
      env.unmarshalClusterConfig raw = Except.ok (⟨cid, []⟩ :: rest) →
      (WithRBDCommandInput env s ns).1 = Except.error (.noMonitors ns)) ∧
    (∀ cid m ms rest,
      env.unmarshalClusterConfig raw = Except.ok (⟨cid, m :: ms⟩ :: rest) →
      (WithRBDCommandInput env s ns).1 = Except.ok () ∧
      mlookup (WithRBDCommandInput env s ns).2.1.rbdCommandInput ns =
        some ⟨m, "admin", key⟩) := by
  refine ⟨?_, ?_, ?_, ?_⟩
  · intro msg hmsg
    unfold WithRBDCommandInput resolveCredential
    simp only [hns, if_true, hs, hk, hc, hr, hmsg]
  · intro h0
    unfold WithRBDCommandInput resolveCredential
    simp only [hns, if_true, hs, hk, hc, hr, h0]
  · intro cid rest hcase
    unfold WithRBDCommandInput resolveCredential
    simp only [hns, if_true, hs, hk, hc, hr, hcase]
  · intro cid m ms rest hcase
    have hmain := withRBD_success_aux env s ns sd cm raw key cid m ms rest
      hns hs hk hc hr hcase
    constructor
    · rw [hmain]
    · rw [hmain]
      dsimp only
      rw [mlookup_minsert, if_pos rfl]

/-- Witness for C7: a non-decoding configmap yields the parse error. -/
theorem resolve_config_errors_witness :
    (WithRBDCommandInput envBadJson st0 "ns1").1 =
      Except.error (.configParse "ns1" "bad json") :=
  (resolve_config_errors envBadJson st0 "ns1" [("ceph-secret", "AQAB")]
      [("csi-cluster-config-json", "notjson")] "notjson" "AQAB"
      (by decide) (by decide) (by decide) (by decide) (by decide)).1
    "bad json" (by decide)

/-- Claim C2: `Resync` always returns nil; an entry whose credential
resolution or status fetch fails during the sweep keeps its existing record
completely unchanged (not removed, not nulled); an entry whose fetch
succeeds has its record overwritten with the freshly fetched status.  The
fetch-failure case is stated both for the credential actually used — the
one cached for the entry's namespace, which the sweep never replaces —
failing, and for a pool unfetchable under every credential. -/
theorem resync_error_tolerance (env : Env) (s : RBDMirrorStore)
    (hnd : (s.Store.map Prod.fst).Nodup) (uid : String)
    (rec : RBDMirrorPoolStatusVerbose)
    (hrec : mlookup s.Store uid = some rec) :
    (Resync env s).1 = Except.ok () ∧
    ((mlookup s.rbdCommandInput rec.PoolNamespace = none ∧
        ¬credResolvable env s.allowedNamespaces rec.PoolNamespace) →
      mlookup (Resync env s).2.1.Store uid = some rec) ∧
    ((∀ inp, ¬fetchOk env inp rec.PoolName) →
      mlookup (Resync env s).2.1.Store uid = some rec) ∧
    (∀ inp e,
      mlookup s.rbdCommandInput rec.PoolNamespace = some inp →
      (rbdImageStatus env inp rec.PoolName).1 = Except.error e →
      mlookup (Resync env s).2.1.Store uid = some rec) ∧
    (∀ inp st calls,
      mlookup s.rbdCommandInput rec.PoolNamespace = some inp →
      rbdImageStatus env inp rec.PoolName = (Except.ok st, calls) →
      mlookup (Resync env s).2.1.Store uid =
        some ⟨rec.PoolName, rec.PoolNamespace, st⟩) := by
  have huniq : ∀ r', (uid, r') ∈ s.Store → r' = rec := by
    intro r' hmem
    have hh := mlookup_of_mem_nodup hnd hmem
    rw [hrec] at hh
    injection hh with hh2
    exact hh2.symm
  refine ⟨rfl, ?_, ?_, ?_, ?_⟩
  · rintro ⟨hnone, hunres⟩
    show mlookup (resyncLoop env s.Store s).1.Store uid = some rec
    exact resyncLoop_cf env rec.PoolNamespace s.Store s uid rec hrec hnone
      hunres (fun r' hmem => by rw [huniq r' hmem])
  · intro hf
    show mlookup (resyncLoop env s.Store s).1.Store uid = some rec
    exact resyncLoop_ff env rec.PoolName hf s.Store s uid rec hrec
      (fun r' hmem => by rw [huniq r' hmem])
  · intro inp e hcred hfail
    show mlookup (resyncLoop env s.Store s).1.Store uid = some rec
    obtain ⟨l1, l2, hdecomp, hnotin1⟩ := exists_decomp_of_mlookup hrec
    have hnotin2 : uid ∉ l2.map Prod.fst := by
      rw [hdecomp] at hnd
      simp only [List.map_append, List.map_cons] at hnd
      exact (List.nodup_cons.mp (List.nodup_append.mp hnd).2.1).1
    have hcredA :
        mlookup (resyncLoop env l1 s).1.rbdCommandInput rec.PoolNamespace =
          some inp :=
      resyncLoop_cred_some env rec.PoolNamespace inp l1 s hcred
    have hitem := resyncItem_fail_cached env (resyncLoop env l1 s).1 uid rec
      inp e hcredA hfail
    rw [hdecomp, resyncLoop_fst_append env l1 ((uid, rec) :: l2) s]
    simp only [resyncLoop]
    rw [resyncLoop_store_notmem env l2 _ uid hnotin2, hitem,
      resyncLoop_store_notmem env l1 s uid hnotin1]
    exact hrec
  · intro inp st calls hcred hfetch
    show mlookup (resyncLoop env s.Store s).1.Store uid =
      some ⟨rec.PoolName, rec.PoolNamespace, st⟩
    obtain ⟨l1, l2, hdecomp, hnotin1⟩ := exists_decomp_of_mlookup hrec
    have hnotin2 : uid ∉ l2.map Prod.fst := by
      rw [hdecomp] at hnd
      simp only [List.map_append, List.map_cons] at hnd
      exact (List.nodup_cons.mp (List.nodup_append.mp hnd).2.1).1
    have hcredA :
        mlookup (resyncLoop env l1 s).1.rbdCommandInput rec.PoolNamespace =
          some inp :=
      resyncLoop_cred_some env rec.PoolNamespace inp l1 s hcred
    have hitem := resyncItem_succ env (resyncLoop env l1 s).1 uid rec inp st
      calls hcredA hfetch
    rw [hdecomp, resyncLoop_fst_append env l1 ((uid, rec) :: l2) s]
    simp only [resyncLoop]
    rw [resyncLoop_store_notmem env l2 _ uid hnotin2]
    rw [hitem]
    dsimp only
    rw [mlookup_minsert, if_pos rfl]

/-- Witness for C2: the entry's namespace has a cached credential, the
fetch with that credential fails, the sweep returns nil and the
pre-populated record is byte-for-byte unchanged. -/
theorem resync_error_tolerance_witness :
    mlookup stRes.rbdCommandInput "ns1" = some inp1 ∧
    (Resync envFail stRes).1 = Except.ok () ∧
    mlookup (Resync envFail stRes).2.1.Store "uA" = some recA :=
  ⟨by decide,
   (resync_error_tolerance envFail stRes (by decide) "uA" recA (by decide)).1,
   (resync_error_tolerance envFail stRes (by decide) "uA" recA
       (by decide)).2.2.2.1
     inp1 (.commandFailed "exec failed") (by decide) (by decide)⟩

/-- Claim C10: `Resync` never adds or removes a cached pool identity, and
for every entry it preserves the `PoolName` and `PoolNamespace` fields —
only the `MirrorStatus` field may differ after the sweep. -/
theorem resync_frame (env : Env) (s : RBDMirrorStore)
    (hnd : (s.Store.map Prod.fst).Nodup) (uid : String) :
    Option.map namesOf (mlookup (Resync env s).2.1.Store uid) =
      Option.map namesOf (mlookup s.Store uid) := by
  show Option.map namesOf (mlookup (resyncLoop env s.Store s).1.Store uid) = _
  exact resyncLoop_names env s.Store s
    (fun u r' hmem => by rw [mlookup_of_mem_nodup hnd hmem]; rfl) uid

/-- Witness for C10. -/
theorem resync_frame_witness :
    Option.map namesOf (mlookup (Resync env0 stRes).2.1.Store "uA") =
      Option.map namesOf (mlookup stRes.Store "uA") :=
  resync_frame env0 stRes (by decide) "uA"

end RBDMirror
